import Mathlib

/-!
Verification of the data-semaphore library (src/src/Semaphore.ts).

The TypeScript classes are shallowly embedded as pure state machines:

* `Semaphore` models `class Semaphore` (the counting gate): fields `count`,
  `acquired` and the FIFO `queue` of pending futures.  Queued waiters are
  named by consecutive ids (`nextWaiter`); `grantedLog` records, in order,
  the waiters that were granted by the hand-off branch of `release()`, and
  `grants` / `rels` count successful grants and `release()` calls.
* `StackedSemaphore` models `class StackedSemaphore`: the inner
  `Semaphore(1)`, the JS number array `counts` (JS numbers are modelled by
  `JSNum`, including `NaN`, which `counts[0]--` produces on an empty array),
  the loosely-compared `lastKey` (JS `==` on `undefined`/`null`/strings is
  `looseEq`) and the cached `lastAcquired` promise, identified by the gate
  acquisition it wraps.
* `Sys` models a `PhasedSemaphore` together with its pending asynchronous
  callers: each suspended `lock`/`acquire` is a task waiting on a concrete
  gate waiter, and resolving a future runs the continuation exactly as the
  microtask queue would for the traces evaluated here.
-/

namespace DataSemaphore

/-- A JavaScript value used as a `StackedSemaphore` key: `undefined`, `null`
or a string.  `PhasedSemaphore` passes `null` or a blocker string; the field
`lastKey` starts out `undefined`. -/
inductive JSKey where
  | undef
  | null
  | str (s : String)
deriving DecidableEq, Repr

/-- JS loose equality `==` restricted to `undefined`/`null`/string values:
`undefined == null` is `true`, strings compare by value, and a string never
equals `undefined` or `null`. -/
def looseEq : JSKey → JSKey → Bool
  | .undef, .undef => true
  | .undef, .null => true
  | .null, .undef => true
  | .null, .null => true
  | .str a, .str b => a == b
  | _, _ => false

/-- A JS number as stored in `StackedSemaphore.counts`: an integer or `NaN`
(produced by `this.counts[0]--` on an empty array). -/
inductive JSNum where
  | nan
  | int (n : Int)
deriving DecidableEq, Repr

def JSNum.dec : JSNum → JSNum
  | .nan => .nan
  | .int n => .int (n - 1)

def JSNum.inc : JSNum → JSNum
  | .nan => .nan
  | .int n => .int (n + 1)

/-- JS `x == 0` for a stored number: `NaN == 0` is `false`. -/
def JSNum.eqZero : JSNum → Bool
  | .nan => false
  | .int n => n = 0

/-- State of `class Semaphore` (the counting gate).  `count` and `acquired`
are the two public counters of the source.  `queue` holds the ids of the
queued futures in FIFO order; `nextWaiter` generates fresh ids.  The ghost
fields `grantedLog` (hand-off grants, in grant order), `grants` (successful
grants: immediate and hand-off) and `rels` (`release()` calls) are observers
and influence no behaviour. -/
structure Semaphore where
  count : Int
  acquired : Int
  queue : List Nat
  nextWaiter : Nat
  grantedLog : List Nat
  grants : Nat
  rels : Nat
deriving DecidableEq, Repr

instance : Inhabited Semaphore := ⟨⟨0, 0, [], 0, [], 0, 0⟩⟩

/-- `new Semaphore(count)`. -/
def Semaphore.mkNew (count : Int) : Semaphore :=
  ⟨count, 0, [], 0, [], 0, 0⟩

/-- `get isLocked () { return this.count <= 0; }` -/
def Semaphore.isLocked (s : Semaphore) : Bool :=
  s.count ≤ 0

/-- `acquire()`: decrement `count`, increment `acquired`; grant immediately
when the new `count` is `>= 0` (result `none`), otherwise push a fresh
future onto the queue and suspend (result `some waiterId`). -/
def Semaphore.acquire (s : Semaphore) : Semaphore × Option Nat :=
  if 0 ≤ s.count - 1 then
    ({ s with count := s.count - 1, acquired := s.acquired + 1, grants := s.grants + 1 }, none)
  else
    ({ s with count := s.count - 1, acquired := s.acquired + 1, queue := s.queue ++ [s.nextWaiter], nextWaiter := s.nextWaiter + 1 }, some s.nextWaiter)

/-- `release()`: increment `count`, decrement `acquired`; when the queue is
non-empty, decrement both again, shift the head future and resolve it (the
granted waiter is returned).  The queue is unaffected by the counter
updates, so the source's increment-then-test is rendered by matching on the
queue with the net counter arithmetic (`+ 1` then `- 1`) spelled out. -/
def Semaphore.release (s : Semaphore) : Semaphore × Option Nat :=
  match s.queue with
  | [] =>
      ({ s with count := s.count + 1, acquired := s.acquired - 1, rels := s.rels + 1 }, none)
  | w :: ws =>
      ({ s with count := s.count + 1 - 1, acquired := s.acquired - 1 + 1, rels := s.rels + 1, queue := ws, grantedLog := s.grantedLog ++ [w], grants := s.grants + 1 }, some w)

/-- An operation performed on a single `Semaphore`. -/
inductive SemOp where
  | acq
  | rel
deriving DecidableEq, Repr

def Semaphore.stepOp (s : Semaphore) : SemOp → Semaphore
  | .acq => (s.acquire).1
  | .rel => (s.release).1

/-- Run a sequence of `acquire()` / `release()` calls. -/
def Semaphore.run (s : Semaphore) (ops : List SemOp) : Semaphore :=
  ops.foldl Semaphore.stepOp s

/-- State of `class StackedSemaphore`.  `gate` is the protected
`new Semaphore(1)`, `counts` the JS number array of per-run pending counts
(head = oldest run), `lastKey` the cached key (starts `undefined`, reset to
`null` on full drain) and `lastAcquiredId` identifies the cached
`lastAcquired` promise: `none` for `null`/`undefined`, `some none` for the
promise of an immediately granted gate acquisition, `some (some w)` for the
promise of queued gate waiter `w`. -/
structure StackedSemaphore where
  gate : Semaphore
  counts : List JSNum
  lastKey : JSKey
  lastAcquiredId : Option (Option Nat)
deriving DecidableEq, Repr

/-- `new StackedSemaphore()`: all fields at their initial (undefined/empty)
values. -/
def StackedSemaphore.mkNew : StackedSemaphore :=
  ⟨Semaphore.mkNew 1, [], JSKey.undef, none⟩

/-- `isLast(blocker) { return this.lastKey == blocker; }` (JS loose
equality). -/
def StackedSemaphore.isLast (st : StackedSemaphore) (blocker : JSKey) : Bool :=
  looseEq st.lastKey blocker

/-- `this.counts[this.counts.length - 1]++`.  On an empty array JS writes
`NaN` to index `-1`, leaving indices `0..` (the modelled list) unchanged. -/
def incLastJS : List JSNum → List JSNum
  | [] => []
  | [x] => [x.inc]
  | x :: y :: xs => x :: incLastJS (y :: xs)

/-- `this.counts[0]--`.  On an empty array JS stores `NaN` at index `0`,
making the array have length 1. -/
def jsDecHead : List JSNum → List JSNum
  | [] => [JSNum.nan]
  | x :: xs => x.dec :: xs

/-- `this.counts[0] == 0` (on an empty array `undefined == 0` is false). -/
def headEqZero : List JSNum → Bool
  | [] => false
  | x :: _ => x.eqZero

/-- `StackedSemaphore.acquire(key)` up to its `await`: if there is a cached
acquisition and the key loosely equals the last key, increment the last
run's count; otherwise push a fresh run count `1`, call `gate.acquire()`
and cache its promise and the key.  The caller then awaits the (new)
`lastAcquiredId`. -/
def StackedSemaphore.acquire (st : StackedSemaphore) (key : JSKey) : StackedSemaphore :=
  if st.lastAcquiredId.isSome && looseEq key st.lastKey then
    { st with counts := incLastJS st.counts }
  else
    let gw := st.gate.acquire
    { st with gate := gw.1, counts := st.counts ++ [JSNum.int 1], lastKey := key, lastAcquiredId := some gw.2 }

/-- `StackedSemaphore.release()`: decrement `counts[0]`; when it reaches `0`
release the gate (possibly granting a queued waiter, which is returned),
drop the head run, and when no runs remain clear `lastKey` (to `null`) and
`lastAcquired`. -/
def StackedSemaphore.release (st : StackedSemaphore) : StackedSemaphore × Option Nat :=
  let counts1 := jsDecHead st.counts
  if headEqZero counts1 then
    let gw := st.gate.release
    let counts2 := counts1.tail
    if counts2.isEmpty then
      ({ st with gate := gw.1, counts := counts2, lastKey := JSKey.null, lastAcquiredId := none }, gw.2)
    else
      ({ st with gate := gw.1, counts := counts2 }, gw.2)
  else
    ({ st with counts := counts1 }, none)

/-- An operation performed directly on a `StackedSemaphore`. -/
inductive StOp where
  | acq (k : JSKey)
  | rel
deriving DecidableEq, Repr

def StackedSemaphore.stepOp (st : StackedSemaphore) : StOp → StackedSemaphore
  | .acq k => st.acquire k
  | .rel => (st.release).1

/-- Run a sequence of operations on a fresh `StackedSemaphore`. -/
def StackedSemaphore.runOps (ops : List StOp) : StackedSemaphore :=
  ops.foldl StackedSemaphore.stepOp StackedSemaphore.mkNew

/-- State of `class PhasedSemaphore`.  `gens` is the `semaphores` array
(head = oldest generation), with each generation tagged by a unique id so
that a suspended `acquire()`'s captured `sem` reference can be followed;
`available` is the turnstile `StackedSemaphore`.  `isLockedF` models the
declared but never assigned field `isLocked: boolean` (`none` =
`undefined`). -/
structure PhasedSemaphore where
  gens : List (Nat × Semaphore)
  nextGenId : Nat
  available : StackedSemaphore
  isLockedF : Option Bool
  capacity : Int
deriving DecidableEq, Repr

/-- `new PhasedSemaphore(count)`. -/
def PhasedSemaphore.mkNew (c : Int) : PhasedSemaphore :=
  ⟨[(0, Semaphore.mkNew c)], 1, StackedSemaphore.mkNew, none, c⟩

/-- Observable events of a `PhasedSemaphore` run: a caller's `acquire()` or
`lock()` resolving (a grant), a caller invoking `release()`/`unlock()`, and
an `acquire()` passing the `sem.acquired === 0` guard and hence requesting a
turnstile ticket. -/
inductive Event where
  | grantedAcq (tid : Nat)
  | grantedLock (tid : Nat)
  | releaseCalled (tid : Nat)
  | unlockCalled (tid : Nat)
  | tookTicket (tid : Nat)
deriving DecidableEq, Repr

/-- Where a suspended caller is parked: awaiting turnstile gate waiter `w`
(with, for `acquire()`, the id of the captured generation to acquire next),
or queued in generation `gid`'s gate as waiter `w`. -/
inductive Stage where
  | tsWait (w : Nat) (cont : Option Nat)
  | genWait (gid : Nat) (w : Nat)
deriving DecidableEq, Repr

/-- A `PhasedSemaphore` together with its suspended callers and the event
log. -/
structure Sys where
  ph : PhasedSemaphore
  tasks : List (Nat × Stage)
  log : List Event
deriving DecidableEq, Repr

/-- Look a generation up by id (follows a captured `sem` reference). -/
def getGen (gid : Nat) : List (Nat × Semaphore) → Option Semaphore
  | [] => none
  | g :: rest => if g.1 = gid then some g.2 else getGen gid rest

/-- Write back a generation by id. -/
def setGen (gid : Nat) (g : Semaphore) : List (Nat × Semaphore) → List (Nat × Semaphore)
  | [] => []
  | p :: rest => if p.1 = gid then (p.1, g) :: rest else p :: setGen gid g rest

/-- Continuation of `PhasedSemaphore.acquire()` after its turnstile `await`:
`await sem.acquire()` on the captured generation.  An immediate grant
resolves the caller; otherwise the caller queues in the generation's gate.
(A captured generation that has been spliced out of `gens` is left alone;
this does not occur in the traces evaluated below.) -/
def contGenAcquire (tid gid : Nat) (sys : Sys) : Sys :=
  match getGen gid sys.ph.gens with
  | none => sys
  | some g =>
      let gw := g.acquire
      let ph1 := { sys.ph with gens := setGen gid gw.1 sys.ph.gens }
      match gw.2 with
      | none => { sys with ph := ph1, log := sys.log ++ [Event.grantedAcq tid] }
      | some w => { sys with ph := ph1, tasks := sys.tasks ++ [(tid, Stage.genWait gid w)] }

/-- Does this stage await turnstile gate waiter `w`? -/
def isTsWaitOn (w : Nat) : Stage → Bool
  | .tsWait w2 _ => w2 == w
  | _ => false

/-- Resume one caller whose turnstile `await` resolved: a `lock()` caller is
granted; an `acquire()` caller proceeds to its captured generation. -/
def resumeTsStep (sy : Sys) (t : Nat × Stage) : Sys :=
  match t.2 with
  | .tsWait _ none => { sy with log := sy.log ++ [Event.grantedLock t.1] }
  | .tsWait _ (some gid) => contGenAcquire t.1 gid sy
  | _ => sy

/-- Turnstile gate waiter `w` was granted: resume every caller awaiting it,
in registration order (promise reaction order). -/
def resumeTs (w : Nat) (sys : Sys) : Sys :=
  let awaiting := sys.tasks.filter (fun t => isTsWaitOn w t.2)
  let rest := sys.tasks.filter (fun t => !(isTsWaitOn w t.2))
  List.foldl resumeTsStep { sys with tasks := rest } awaiting

/-- Generation `gid`'s gate waiter `w` was granted: the queued `acquire()`
caller resolves. -/
def resumeGen (gid w : Nat) (sys : Sys) : Sys :=
  let awaiting := sys.tasks.filter (fun t => t.2 == Stage.genWait gid w)
  let rest := sys.tasks.filter (fun t => !(t.2 == Stage.genWait gid w))
  List.foldl (fun sy t => { sy with log := sy.log ++ [Event.grantedAcq t.1] }) { sys with tasks := rest } awaiting

/-- `PhasedSemaphore.acquire()` by caller `tid`: capture the newest
generation; if its `acquired` counter is `0`, first take a turnstile ticket
with key `null` (possibly suspending); then acquire the captured
generation's gate (possibly suspending). -/
def phAcquire (tid : Nat) (sys : Sys) : Sys :=
  match sys.ph.gens.getLast? with
  | none => sys
  | some (gid, g) =>
      if g.acquired = 0 then
        let ts := sys.ph.available.acquire JSKey.null
        let sys1 : Sys := { sys with ph := { sys.ph with available := ts }, log := sys.log ++ [Event.tookTicket tid] }
        match ts.lastAcquiredId with
        | none => contGenAcquire tid gid sys1
        | some none => contGenAcquire tid gid sys1
        | some (some w) =>
            if ts.gate.grantedLog.contains w then contGenAcquire tid gid sys1
            else { sys1 with tasks := sys1.tasks ++ [(tid, Stage.tsWait w (some gid))] }
      else contGenAcquire tid gid sys

/-- `PhasedSemaphore.lock(blocker)` by caller `tid`: if `blocker` is not
loosely equal to the turnstile's `lastKey`, append a fresh generation; then
`available.acquire(blocker)` (possibly suspending). -/
def phLock (tid : Nat) (blocker : JSKey) (sys : Sys) : Sys :=
  let ph0 := sys.ph
  let ph1 := if !(ph0.available.isLast blocker) then { ph0 with gens := ph0.gens ++ [(ph0.nextGenId, Semaphore.mkNew ph0.capacity)], nextGenId := ph0.nextGenId + 1 } else ph0
  let ts := ph1.available.acquire blocker
  let sys1 : Sys := { sys with ph := { ph1 with available := ts } }
  match ts.lastAcquiredId with
  | none => { sys1 with log := sys1.log ++ [Event.grantedLock tid] }
  | some none => { sys1 with log := sys1.log ++ [Event.grantedLock tid] }
  | some (some w) =>
      if ts.gate.grantedLog.contains w then { sys1 with log := sys1.log ++ [Event.grantedLock tid] }
      else { sys1 with tasks := sys1.tasks ++ [(tid, Stage.tsWait w none)] }

/-- `if (this.semaphores.length > 1 && this.semaphores[0].acquired === 0)
this.semaphores.splice(0, 1)` — the generation garbage collection shared by
`unlock()` (and, with the head already updated, by `release()`). -/
def spliceIfDrained (ph : PhasedSemaphore) : PhasedSemaphore :=
  match ph.gens with
  | [] => ph
  | g0 :: rest => if rest ≠ [] ∧ (g0.2).acquired = 0 then { ph with gens := rest } else ph

/-- `PhasedSemaphore.unlock()` by caller `tid`: release the turnstile, then
(synchronously) drop the oldest generation when a newer one exists and its
`acquired` counter is `0`; a turnstile waiter granted by the release resumes
afterwards, as a microtask. -/
def phUnlock (tid : Nat) (sys : Sys) : Sys :=
  let tsr := sys.ph.available.release
  let sys1 : Sys := { sys with ph := spliceIfDrained { sys.ph with available := tsr.1 }, log := sys.log ++ [Event.unlockCalled tid] }
  match tsr.2 with
  | none => sys1
  | some w => resumeTs w sys1

/-- `PhasedSemaphore.release()` invoked via caller `tid`'s release handle:
release the oldest generation's gate, release the turnstile
(unconditionally, as the source does), drop the oldest generation when its
`acquired` counter reached `0` and a newer generation exists; then resume,
in resolution order, a generation-gate waiter and a turnstile waiter granted
by the two releases. -/
def phRelease (tid : Nat) (sys : Sys) : Sys :=
  match sys.ph.gens with
  | [] => sys
  | (gid, g) :: rest =>
      let gr := g.release
      let tsr := sys.ph.available.release
      let gens2 := if (gr.1).acquired = 0 ∧ rest ≠ [] then rest else (gid, gr.1) :: rest
      let sys1 : Sys := { sys with ph := { sys.ph with gens := gens2, available := tsr.1 }, log := sys.log ++ [Event.releaseCalled tid] }
      let sys2 := match gr.2 with
        | none => sys1
        | some w => resumeGen gid w sys1
      match tsr.2 with
      | none => sys2
      | some w => resumeTs w sys2

/-- Operations of a `PhasedSemaphore` trace, each tagged with the calling
task's id (release/unlock carry the id of the caller for the log only). -/
inductive PhOp where
  | acq (tid : Nat)
  | rel (tid : Nat)
  | lock (tid : Nat) (key : JSKey)
  | unlock (tid : Nat)
deriving DecidableEq, Repr

def Sys.step (sys : Sys) : PhOp → Sys
  | .acq tid => phAcquire tid sys
  | .rel tid => phRelease tid sys
  | .lock tid key => phLock tid key sys
  | .unlock tid => phUnlock tid sys

/-- A fresh `PhasedSemaphore` of capacity `c` with no pending callers. -/
def Sys.mkNew (c : Int) : Sys :=
  ⟨PhasedSemaphore.mkNew c, [], []⟩

/-- Run a trace against a fresh `PhasedSemaphore` of capacity `c`. -/
def Sys.run (c : Int) (ops : List PhOp) : Sys :=
  ops.foldl Sys.step (Sys.mkNew c)

/-- The oldest generation's gate (`this.semaphores[0]`). -/
def Sys.oldestGate (sys : Sys) : Semaphore :=
  match sys.ph.gens with
  | [] => default
  | g :: _ => g.2

/-- Would an `acquire()` issued now by a fresh caller `tid` suspend?  It
suspends exactly when running it does not immediately log its grant. -/
def Sys.acquireWouldSuspend (sys : Sys) (tid : Nat) : Bool :=
  !((phAcquire tid sys).log.contains (Event.grantedAcq tid))

/-- C1 failing trace, on capacity 2: callers 0 and 1 acquire (both granted),
caller 2 locks blocker "w" (suspends on the turnstile), caller 3 acquires
(suspends on the turnstile behind the blocker), caller 0 releases, caller 2
(the blocker) unlocks. -/
def c1ops : List PhOp :=
  [PhOp.acq 0, PhOp.acq 1, PhOp.lock 2 (JSKey.str "w"), PhOp.acq 3, PhOp.rel 0, PhOp.unlock 2]

/-- C3/C4 trace, on capacity 1: caller 0 acquires (granted, with ticket),
caller 1 acquires (queued, no ticket), caller 0 releases (hand-off grants
caller 1), caller 1 releases. -/
def c3ops : List PhOp :=
  [PhOp.acq 0, PhOp.acq 1, PhOp.rel 0, PhOp.rel 1]

/-- C7 failing trace: two different-key runs drain completely, then a third
key arrives. -/
def c7ops : List StOp :=
  [StOp.acq (JSKey.str "a"), StOp.acq (JSKey.str "b"), StOp.rel, StOp.rel]

/-- State of `class StateLaneSemaphore` (a lane): its `name`, the names of
the lanes it `blocks`, its own `PhasedSemaphore` (with that gate's pending
callers, as a `Sys`), and `isLockedF`, modelling the declared but never
assigned field `isLocked: boolean` (`none` = `undefined`). -/
structure StateLaneSemaphore where
  name : String
  blocks : List String
  phase : Sys
  isLockedF : Option Bool
deriving DecidableEq, Repr

/-- State of `class StateSemaphore`: the lane registry (insertion-ordered,
as a JS `Map`).  The source lazily creates missing lanes with capacity
`Infinity`; the gate model counts capacity in `Int`, so the graph carries
the capacity `defCap` its lazily created lanes get (the `isLocked` field,
the subject of the theorems below, is independent of that capacity). -/
structure StateSemaphore where
  lanes : List (String × StateLaneSemaphore)
  defCap : Int
deriving DecidableEq, Repr

/-- `this.lanes.get(name)`. -/
def lookupLane (n : String) : List (String × StateLaneSemaphore) → Option StateLaneSemaphore
  | [] => none
  | l :: rest => if l.1 = n then some l.2 else lookupLane n rest

/-- `this.lanes.set(name, lane)`: replace an existing entry or append. -/
def setLane (n : String) (lane : StateLaneSemaphore) : List (String × StateLaneSemaphore) → List (String × StateLaneSemaphore)
  | [] => [(n, lane)]
  | l :: rest => if l.1 = n then (n, lane) :: rest else l :: setLane n lane rest

/-- `createLane(name, blocks, count)`: register a fresh lane. -/
def StateSemaphore.createLane (g : StateSemaphore) (name : String) (blocks : List String) (count : Int) : StateSemaphore :=
  { g with lanes := setLane name ⟨name, blocks, Sys.mkNew count, none⟩ g.lanes }

/-- `new StateSemaphore(lanes)`: create each configured lane in order. -/
def StateSemaphore.mkNew (defCap : Int) (spec : List (String × List String × Int)) : StateSemaphore :=
  spec.foldl (fun g t => g.createLane t.1 t.2.1 t.2.2) ⟨[], defCap⟩

/-- `getLane(name)`: return the registered lane, lazily creating a
non-blocking default lane when absent. -/
def StateSemaphore.getLane (g : StateSemaphore) (n : String) : StateSemaphore × StateLaneSemaphore :=
  match lookupLane n g.lanes with
  | some l => (g, l)
  | none => ({ g with lanes := g.lanes ++ [(n, ⟨n, [], Sys.mkNew g.defCap, none⟩)] }, ⟨n, [], Sys.mkNew g.defCap, none⟩)

/-- Apply one `PhasedSemaphore` operation to lane `n`'s phase gate. -/
def stepLanePhase (n : String) (op : PhOp) (g : StateSemaphore) : StateSemaphore :=
  { g with lanes := g.lanes.map (fun l => if l.1 = n then (l.1, { l.2 with phase := l.2.phase.step op }) else l) }

/-- `StateLaneSemaphore.acquire()` by caller `tid`: the source joins
`Promise.all([this.semaphore.lock(null), this.semaphore.acquire(),
...this.blocks.map(name => this.parent.getLane(name).lock(this.name))])`.
The array literal evaluates in order, so each sub-call runs its synchronous
prefix in call order, parking any continuation with the respective phase
gate; the join completes when every sub-call's grant has been logged. -/
def laneAcquire (laneName : String) (tid : Nat) (g0 : StateSemaphore) : StateSemaphore :=
  let gl := g0.getLane laneName
  let g1 := stepLanePhase laneName (PhOp.lock tid JSKey.null) gl.1
  let g2 := stepLanePhase laneName (PhOp.acq tid) g1
  (gl.2).blocks.foldl (fun g b => stepLanePhase b (PhOp.lock tid (JSKey.str laneName)) (g.getLane b).1) g2

/-- `StateLaneSemaphore.release()` by caller `tid`: unlock every blocked
sibling, then unlock and release the lane's own phase gate. -/
def laneRelease (laneName : String) (tid : Nat) (g0 : StateSemaphore) : StateSemaphore :=
  let gl := g0.getLane laneName
  let g1 := (gl.2).blocks.foldl (fun g b => stepLanePhase b (PhOp.unlock tid) (g.getLane b).1) gl.1
  let g2 := stepLanePhase laneName (PhOp.unlock tid) g1
  stepLanePhase laneName (PhOp.rel tid) g2

/-- One operation on the lane graph: `acquire(lane)` / `release(lane)` (the
`StateSemaphore` API) or a direct `lock`/`unlock` on a lane (the
`StateLaneSemaphore` API used by blocking siblings). -/
inductive LaneOp where
  | acq (lane : String) (tid : Nat)
  | rel (lane : String) (tid : Nat)
  | lock (lane : String) (tid : Nat) (key : JSKey)
  | unlock (lane : String) (tid : Nat)
deriving DecidableEq, Repr

def StateSemaphore.stepOp (g : StateSemaphore) : LaneOp → StateSemaphore
  | .acq n tid => laneAcquire n tid g
  | .rel n tid => laneRelease n tid g
  | .lock n tid key => stepLanePhase n (PhOp.lock tid key) (g.getLane n).1
  | .unlock n tid => stepLanePhase n (PhOp.unlock tid) (g.getLane n).1

/-- Run a trace of lane operations against a configured lane graph. -/
def StateSemaphore.runOps (defCap : Int) (spec : List (String × List String × Int)) (ops : List LaneOp) : StateSemaphore :=
  ops.foldl StateSemaphore.stepOp (StateSemaphore.mkNew defCap spec)

/-- Every lane of the graph has its own `isLocked` field and its phase
gate's `isLocked` field still undefined. -/
def LaneInv (g : StateSemaphore) : Prop :=
  ∀ p ∈ g.lanes, p.2.isLockedF = none ∧ p.2.phase.ph.isLockedF = none

end DataSemaphore

namespace DataSemaphore

/-- Fold preservation: an invariant preserved by a step function holds after
folding any list of operations. -/
theorem foldl_pres {α β : Type} {P : α → Prop} {f : α → β → α}
    (h : ∀ a b, P a → P (f a b)) :
    ∀ (l : List β) (a : α), P a → P (List.foldl f a l) := by
  intro l
  induction l with
  | nil => intro a ha; exact ha
  | cons b t ih => intro a ha; exact ih (f a b) (h a b ha)

theorem sem_step_count_acquired (c : Int) (s : Semaphore) (op : SemOp)
    (h : s.count + s.acquired = c) : (s.stepOp op).count + (s.stepOp op).acquired = c := by
  cases op with
  | acq =>
      simp only [Semaphore.stepOp, Semaphore.acquire]
      split <;> simp <;> omega
  | rel =>
      simp only [Semaphore.stepOp, Semaphore.release]
      split <;> simp <;> omega

/-- C9: for a `Semaphore` constructed with capacity `c`, the equality
`count + acquired = c` holds initially and after any sequence of `acquire()`
and `release()` calls, including unmatched `release()` calls. -/
theorem c9_invariant (c : Int) (ops : List SemOp) :
    ((Semaphore.mkNew c).run ops).count + ((Semaphore.mkNew c).run ops).acquired = c := by
  simp only [Semaphore.run]
  exact foldl_pres (P := fun s : Semaphore => s.count + s.acquired = c)
    (sem_step_count_acquired c) ops (Semaphore.mkNew c) (by simp [Semaphore.mkNew])

theorem sem_step_fifo (s : Semaphore) (op : SemOp)
    (h : s.grantedLog ++ s.queue = List.range s.nextWaiter) :
    (s.stepOp op).grantedLog ++ (s.stepOp op).queue = List.range (s.stepOp op).nextWaiter := by
  cases op with
  | acq =>
      simp only [Semaphore.stepOp, Semaphore.acquire]
      split
      · simpa using h
      · simp only [List.range_succ, ← h]
        simp
  | rel =>
      simp only [Semaphore.stepOp, Semaphore.release]
      split
      · simpa using h
      · rename_i w ws hq
        rw [hq] at h
        simp only [← h]
        simp

/-- C5: grants from a `Semaphore`'s wait queue occur in exactly the order the
waiters were enqueued.  First conjunct: after any run from a fresh semaphore,
the hand-off grant log followed by the remaining queue is exactly the list of
enqueued waiter ids in enqueue order (so grants form a prefix of the enqueue
order and the queue is never reordered).  Second conjunct: a `release()` in a
state with a non-empty queue grants precisely the head waiter and leaves the
tail, in order. -/
theorem c5_fifo :
    (∀ (c : Int) (ops : List SemOp),
        ((Semaphore.mkNew c).run ops).grantedLog ++ ((Semaphore.mkNew c).run ops).queue
          = List.range ((Semaphore.mkNew c).run ops).nextWaiter)
    ∧ (∀ (s : Semaphore) (w : Nat) (ws : List Nat), s.queue = w :: ws →
        (s.release).2 = some w ∧ ((s.release).1).queue = ws) := by
  constructor
  · intro c ops
    simp only [Semaphore.run]
    exact foldl_pres (P := fun s : Semaphore =>
        s.grantedLog ++ s.queue = List.range s.nextWaiter)
      sem_step_fifo ops (Semaphore.mkNew c) (by simp [Semaphore.mkNew])
  · intro s w ws hq
    simp [Semaphore.release, hq]

/-- Witness for `c5_fifo`: in a state whose queue is `[7]`, `release()`
grants waiter `7` and empties the queue. -/
theorem c5_fifo_witness :
    (⟨0, 1, [7], 8, [0, 1], 2, 0⟩ : Semaphore).queue = 7 :: []
    ∧ ((⟨0, 1, [7], 8, [0, 1], 2, 0⟩ : Semaphore).release).2 = some 7
    ∧ (((⟨0, 1, [7], 8, [0, 1], 2, 0⟩ : Semaphore).release).1).queue = [] :=
  ⟨rfl, c5_fifo.2 ⟨0, 1, [7], 8, [0, 1], 2, 0⟩ 7 [] rfl⟩

theorem sem_step_bound (c : Int) (s : Semaphore) (op : SemOp)
    (h : ((s.grants : Int) - s.rels + s.queue.length = c - s.count - s.grantedLog.length)
      ∧ 0 ≤ s.count + s.queue.length + s.grantedLog.length) :
    (((s.stepOp op).grants : Int) - (s.stepOp op).rels + (s.stepOp op).queue.length
        = c - (s.stepOp op).count - (s.stepOp op).grantedLog.length)
    ∧ 0 ≤ (s.stepOp op).count + (s.stepOp op).queue.length + (s.stepOp op).grantedLog.length := by
  obtain ⟨h1, h2⟩ := h
  cases op with
  | acq =>
      simp only [Semaphore.stepOp, Semaphore.acquire]
      split <;> simp <;> constructor <;> omega
  | rel =>
      simp only [Semaphore.stepOp, Semaphore.release]
      split
      · simp
        constructor <;> omega
      · rename_i w ws hq
        rw [hq] at h1 h2
        simp at h1 h2 ⊢
        constructor <;> omega

/-- C6: a `Semaphore` of capacity `c ≥ 1` never has more than `c` concurrent
holders (successful grants not yet released) after any operation sequence in
which releases are matched to prior grants, and `count` never exceeds `c`;
moreover on a hand-off (`release()` with a non-empty queue) the `count` field
is not further incremented: it ends exactly where it started. -/
theorem c6_bounded (c : Int) (ops : List SemOp) (hc : 1 ≤ c)
    (hm : ((Semaphore.mkNew c).run ops).rels ≤ ((Semaphore.mkNew c).run ops).grants) :
    ((((Semaphore.mkNew c).run ops).grants : Int) - ((Semaphore.mkNew c).run ops).rels ≤ c
      ∧ ((Semaphore.mkNew c).run ops).count ≤ c)
    ∧ (∀ (s : Semaphore) (w : Nat) (ws : List Nat), s.queue = w :: ws →
        ((s.release).1).count = s.count) := by
  constructor
  · simp only [Semaphore.run] at hm ⊢
    have h := foldl_pres (P := fun s : Semaphore =>
        ((s.grants : Int) - s.rels + s.queue.length = c - s.count - s.grantedLog.length)
          ∧ 0 ≤ s.count + s.queue.length + s.grantedLog.length)
      (sem_step_bound c) ops (Semaphore.mkNew c)
      (by simp [Semaphore.mkNew]; omega)
    obtain ⟨h1, h2⟩ := h
    have hm' : (((List.foldl Semaphore.stepOp (Semaphore.mkNew c) ops).rels : Int))
        ≤ ((List.foldl Semaphore.stepOp (Semaphore.mkNew c) ops).grants : Int) := by
      exact_mod_cast hm
    constructor <;> omega
  · intro s w ws hq
    simp [Semaphore.release, hq]

/-- Witness for `c6_bounded` at capacity `1` with a single `acquire()`. -/
theorem c6_bounded_witness :
    (1 ≤ (1 : Int))
    ∧ ((Semaphore.mkNew 1).run [SemOp.acq]).rels ≤ ((Semaphore.mkNew 1).run [SemOp.acq]).grants
    ∧ (((((Semaphore.mkNew 1).run [SemOp.acq]).grants : Int)
          - (((Semaphore.mkNew 1).run [SemOp.acq])).rels ≤ 1
        ∧ ((Semaphore.mkNew 1).run [SemOp.acq]).count ≤ 1)
      ∧ (∀ (s : Semaphore) (w : Nat) (ws : List Nat), s.queue = w :: ws →
          ((s.release).1).count = s.count)) :=
  ⟨by decide, by decide, c6_bounded 1 [SemOp.acq] (by decide) (by decide)⟩

/-- C2 counterexample: on `new Semaphore(1)`, after one `acquire()` a first
`release()` restores `count = 1`, but a second `release()` raises no error
and silently pushes `count` to `2` — above the capacity and the pre-acquire
value — and `acquired` to `-1`.  (`Semaphore.release` is a total function:
no code path raises.) -/
theorem c2_counterexample :
    ((Semaphore.mkNew 1).run [SemOp.acq, SemOp.rel]).count = 1
    ∧ ((Semaphore.mkNew 1).run [SemOp.acq, SemOp.rel, SemOp.rel]).count = 2
    ∧ ((Semaphore.mkNew 1).run [SemOp.acq, SemOp.rel, SemOp.rel]).acquired = -1 := by
  decide

/-- C2 (amended): for an `acquire()` granted immediately (state with
`count ≥ 1` and empty queue), calling the returned release once restores the
observable state (`count`, `acquired`, `queue`, `isLocked`) to its
pre-acquire values; calling it a second time raises no error and silently
moves the counters past their pre-acquire values. -/
theorem c2_round_trip (s : Semaphore) (h1 : 1 ≤ s.count) (h2 : s.queue = []) :
    ((((s.acquire).1.release).1.count = s.count
        ∧ ((s.acquire).1.release).1.acquired = s.acquired)
      ∧ (((s.acquire).1.release).1.queue = s.queue
        ∧ ((s.acquire).1.release).1.isLocked = s.isLocked))
    ∧ ((((s.acquire).1.release).1.release).1.count = s.count + 1
      ∧ (((s.acquire).1.release).1.release).1.acquired = s.acquired - 1) := by
  have hpos : 0 ≤ s.count - 1 := by omega
  simp [Semaphore.acquire, Semaphore.release, hpos, h2, Semaphore.isLocked]

/-- Witness for `c2_round_trip` on `new Semaphore(1)`. -/
theorem c2_round_trip_witness :
    (1 ≤ (Semaphore.mkNew 1).count ∧ (Semaphore.mkNew 1).queue = [])
    ∧ (((((Semaphore.mkNew 1).acquire).1.release).1.count = (Semaphore.mkNew 1).count
          ∧ (((Semaphore.mkNew 1).acquire).1.release).1.acquired = (Semaphore.mkNew 1).acquired)
        ∧ ((((Semaphore.mkNew 1).acquire).1.release).1.queue = (Semaphore.mkNew 1).queue
          ∧ (((Semaphore.mkNew 1).acquire).1.release).1.isLocked = (Semaphore.mkNew 1).isLocked))
      ∧ (((((Semaphore.mkNew 1).acquire).1.release).1.release).1.count
            = (Semaphore.mkNew 1).count + 1
        ∧ ((((Semaphore.mkNew 1).acquire).1.release).1.release).1.acquired
            = (Semaphore.mkNew 1).acquired - 1) :=
  ⟨⟨by decide, rfl⟩, c2_round_trip (Semaphore.mkNew 1) (by decide) rfl⟩

/-- C7 evaluation at the failing input: `acquire("a")`, `acquire("b")`
(queued), `release`, `release`.  All runs have drained: `counts` is empty,
`lastKey` was cleared to `null` and the cached acquisition dropped — yet the
inner gate's `count` is `0` (the hand-off branch of `Semaphore.release`
double-decremented), so the subsequent `acquire("c")` enqueues gate waiter
`1` (the grant log still holds only waiter `0`): it suspends instead of
starting fresh without queuing delay. -/
theorem c7_trace_eval :
    (StackedSemaphore.runOps c7ops).counts = []
    ∧ (StackedSemaphore.runOps c7ops).lastKey = JSKey.null
    ∧ (StackedSemaphore.runOps c7ops).lastAcquiredId = none
    ∧ (StackedSemaphore.runOps c7ops).gate.count = 0
    ∧ ((StackedSemaphore.runOps c7ops).stepOp (StOp.acq (JSKey.str "c"))).gate.queue = [1]
    ∧ ((StackedSemaphore.runOps c7ops).stepOp (StOp.acq (JSKey.str "c"))).gate.grantedLog = [0] := by
  decide

/-- C1 evaluation at the failing input (`c1ops`, capacity 2): caller 3's
`acquire()`, issued after caller 2's `lock("w")`, is granted (final event)
even though caller 1 — granted before the lock — never released.  Only
caller 0 held a turnstile ticket, so the turnstile drained after caller 0's
release alone and the old generation was never waited for. -/
theorem c1_trace_eval :
    (Sys.run 2 c1ops).log = [Event.tookTicket 0, Event.grantedAcq 0, Event.grantedAcq 1, Event.tookTicket 3, Event.releaseCalled 0, Event.grantedLock 2, Event.unlockCalled 2, Event.grantedAcq 3]
    ∧ Event.releaseCalled 1 ∉ (Sys.run 2 c1ops).log := by
  decide

/-- C3 evaluation at the failing input (`c3ops`, capacity 1): after caller
1 was granted by hand-off and both callers released, the only (hence
newest) generation has zero holders (2 grants, 2 releases) but its
`acquired` counter is stuck at 1 (hand-off double-count), so a subsequent
`acquire()` by caller 2 does not request a turnstile ticket. -/
theorem c3_trace_eval :
    ((Sys.run 1 c3ops).oldestGate.grants : Int) - (Sys.run 1 c3ops).oldestGate.rels = 0
    ∧ (Sys.run 1 c3ops).ph.gens.length = 1
    ∧ (Sys.run 1 c3ops).oldestGate.acquired = 1
    ∧ Event.tookTicket 2 ∉ ((Sys.run 1 c3ops).step (PhOp.acq 2)).log := by
  decide

/-- C4 counterexample: on capacity 1, caller 1's `acquire()` found the
generation fully occupied (`count = 0`) and took no turnstile ticket, yet
its `release()` still invokes a turnstile release: the turnstile's `counts`
array goes from `[]` to `[NaN]`. -/
theorem c4_counterexample :
    Event.tookTicket 1 ∉ (Sys.run 1 c3ops).log
    ∧ (Sys.run 1 [PhOp.acq 0]).oldestGate.count = 0
    ∧ (Sys.run 1 [PhOp.acq 0, PhOp.acq 1, PhOp.rel 0]).ph.available.counts = []
    ∧ ((Sys.run 1 [PhOp.acq 0, PhOp.acq 1, PhOp.rel 0]).step (PhOp.rel 1)).ph.available.counts = [JSNum.nan] := by
  decide

/-- C8 counterexample: on a capacity-1 `PhasedSemaphore` with one holder, an
immediate `acquire()` would suspend, yet the `isLocked` field is still
unassigned (`undefined`, falsy) rather than `true`. -/
theorem c8_counterexample :
    (Sys.run 1 [PhOp.acq 0]).acquireWouldSuspend 1 = true
    ∧ (Sys.run 1 [PhOp.acq 0]).ph.isLockedF ≠ some true := by
  decide

/-- C10: on a fresh `PhasedSemaphore`, `lock(null)` appends no generation —
the uninitialized `lastKey` (`undefined`) is loosely equal to `null` — and
acquires the turnstile; `lock(k)` for any string `k` appends exactly one
fresh generation (before acquiring the turnstile, whose state afterwards
records the new run). -/
theorem c10_first_lock (c : Int) (k : String) :
    ((Sys.run c [PhOp.lock 0 JSKey.null]).ph.gens = [(0, Semaphore.mkNew c)]
      ∧ (Sys.run c [PhOp.lock 0 JSKey.null]).ph.available.counts = [JSNum.int 1]
      ∧ (Sys.run c [PhOp.lock 0 JSKey.null]).ph.available.lastKey = JSKey.null
      ∧ (Sys.run c [PhOp.lock 0 JSKey.null]).log = [Event.grantedLock 0])
    ∧ ((Sys.run c [PhOp.lock 0 (JSKey.str k)]).ph.gens = [(0, Semaphore.mkNew c), (1, Semaphore.mkNew c)]
      ∧ (Sys.run c [PhOp.lock 0 (JSKey.str k)]).ph.available.counts = [JSNum.int 1]
      ∧ (Sys.run c [PhOp.lock 0 (JSKey.str k)]).ph.available.lastKey = JSKey.str k
      ∧ (Sys.run c [PhOp.lock 0 (JSKey.str k)]).log = [Event.grantedLock 0]) :=
  ⟨⟨rfl, rfl, rfl, rfl⟩, ⟨rfl, rfl, rfl, rfl⟩⟩

theorem setGen_length (gid : Nat) (g : Semaphore) (l : List (Nat × Semaphore)) :
    (setGen gid g l).length = l.length := by
  induction l with
  | nil => rfl
  | cons p rest ih => simp only [setGen]; split <;> simp [ih]

theorem contGen_facts (tid gid : Nat) (sys : Sys) :
    (contGenAcquire tid gid sys).ph.isLockedF = sys.ph.isLockedF
    ∧ (contGenAcquire tid gid sys).ph.gens.length = sys.ph.gens.length
    ∧ (contGenAcquire tid gid sys).ph.available = sys.ph.available := by
  unfold contGenAcquire
  cases hg : getGen gid sys.ph.gens with
  | none => simp
  | some g =>
      cases hw : (g.acquire).2 <;> simp [hw, setGen_length]

theorem resumeTsStep_facts (sy : Sys) (t : Nat × Stage) :
    (resumeTsStep sy t).ph.isLockedF = sy.ph.isLockedF
    ∧ (resumeTsStep sy t).ph.gens.length = sy.ph.gens.length
    ∧ (resumeTsStep sy t).ph.available = sy.ph.available := by
  obtain ⟨tid, st⟩ := t
  cases st with
  | tsWait w cont =>
      cases cont with
      | none => simp [resumeTsStep]
      | some gid => exact contGen_facts tid gid sy
  | genWait gid w => simp [resumeTsStep]

theorem resumeTs_facts (w : Nat) (sys : Sys) :
    (resumeTs w sys).ph.isLockedF = sys.ph.isLockedF
    ∧ (resumeTs w sys).ph.gens.length = sys.ph.gens.length
    ∧ (resumeTs w sys).ph.available = sys.ph.available := by
  unfold resumeTs
  apply foldl_pres (P := fun sy : Sys =>
      sy.ph.isLockedF = sys.ph.isLockedF ∧ sy.ph.gens.length = sys.ph.gens.length
        ∧ sy.ph.available = sys.ph.available)
  · intro a b hp
    have h := resumeTsStep_facts a b
    exact ⟨h.1.trans hp.1, (h.2.1).trans hp.2.1, (h.2.2).trans hp.2.2⟩
  · exact ⟨rfl, rfl, rfl⟩

theorem resumeGen_ph (gid w : Nat) (sys : Sys) : (resumeGen gid w sys).ph = sys.ph := by
  unfold resumeGen
  apply foldl_pres (P := fun sy : Sys => sy.ph = sys.ph)
  · intro a b hp
    exact hp
  · rfl

theorem sys_update_tasks_nil (sys : Sys) (h : sys.tasks = []) :
    ({ sys with tasks := ([] : List (Nat × Stage)) } : Sys) = sys := by
  cases sys
  simp_all

theorem resumeGen_nil (gid w : Nat) (sys : Sys) (h : sys.tasks = []) :
    resumeGen gid w sys = sys := by
  unfold resumeGen
  rw [h]
  simp only [List.filter_nil, List.foldl_nil]
  exact sys_update_tasks_nil sys h

theorem resumeTs_nil (w : Nat) (sys : Sys) (h : sys.tasks = []) :
    resumeTs w sys = sys := by
  unfold resumeTs
  rw [h]
  simp only [List.filter_nil, List.foldl_nil]
  exact sys_update_tasks_nil sys h

theorem resumeGen_tasks_nil (gid w : Nat) (sys : Sys) (h : sys.tasks = []) :
    (resumeGen gid w sys).tasks = [] := by
  rw [resumeGen_nil gid w sys h]
  exact h

theorem ne_nil_of_length_eq {A B : Type} {l1 : List A} {l2 : List B}
    (h : l1.length = l2.length) (hne : l2 ≠ []) : l1 ≠ [] := by
  intro hemp
  cases l2 with
  | nil => exact hne rfl
  | cons a t =>
      rw [hemp] at h
      simp at h

theorem phAcquire_facts (tid : Nat) (sys : Sys) :
    (phAcquire tid sys).ph.isLockedF = sys.ph.isLockedF
    ∧ (phAcquire tid sys).ph.gens.length = sys.ph.gens.length := by
  unfold phAcquire
  split
  · exact ⟨rfl, rfl⟩
  · split
    · dsimp only
      split
      · exact ⟨(contGen_facts _ _ _).1, (contGen_facts _ _ _).2.1⟩
      · exact ⟨(contGen_facts _ _ _).1, (contGen_facts _ _ _).2.1⟩
      · split
        · exact ⟨(contGen_facts _ _ _).1, (contGen_facts _ _ _).2.1⟩
        · exact ⟨rfl, rfl⟩
    · exact ⟨(contGen_facts _ _ _).1, (contGen_facts _ _ _).2.1⟩

theorem phLock_facts (tid : Nat) (key : JSKey) (sys : Sys) :
    (phLock tid key sys).ph.isLockedF = sys.ph.isLockedF
    ∧ sys.ph.gens.length ≤ (phLock tid key sys).ph.gens.length := by
  refine ⟨?_, ?_⟩ <;> (simp only [phLock]; repeat' split) <;> simp

theorem spliceIfDrained_facts (ph : PhasedSemaphore) :
    (spliceIfDrained ph).isLockedF = ph.isLockedF
    ∧ (spliceIfDrained ph).available = ph.available
    ∧ (ph.gens ≠ [] → (spliceIfDrained ph).gens ≠ []) := by
  unfold spliceIfDrained
  cases hg : ph.gens with
  | nil => exact ⟨rfl, rfl, fun h => absurd rfl h⟩
  | cons g0 rest =>
      dsimp only
      split
      · rename_i hcond
        exact ⟨rfl, rfl, fun _ => hcond.1⟩
      · refine ⟨rfl, rfl, fun _ => ?_⟩
        rw [hg]
        simp

theorem phUnlock_facts (tid : Nat) (sys : Sys) :
    (phUnlock tid sys).ph.isLockedF = sys.ph.isLockedF
    ∧ (sys.ph.gens ≠ [] → (phUnlock tid sys).ph.gens ≠ []) := by
  unfold phUnlock
  dsimp only
  have hsp := spliceIfDrained_facts { sys.ph with available := (sys.ph.available.release).1 }
  cases htr : (sys.ph.available.release).2 with
  | none => exact ⟨hsp.1, hsp.2.2⟩
  | some w =>
      have hr := resumeTs_facts w { sys with ph := spliceIfDrained { sys.ph with available := (sys.ph.available.release).1 }, log := sys.log ++ [Event.unlockCalled tid] }
      refine ⟨hr.1.trans hsp.1, fun h => ?_⟩
      exact ne_nil_of_length_eq hr.2.1 (hsp.2.2 h)

theorem phRelease_facts (tid : Nat) (sys : Sys) :
    (phRelease tid sys).ph.isLockedF = sys.ph.isLockedF
    ∧ (sys.ph.gens ≠ [] → (phRelease tid sys).ph.gens ≠ []) := by
  unfold phRelease
  cases hg : sys.ph.gens with
  | nil => exact ⟨rfl, fun h => absurd rfl h⟩
  | cons p rest =>
      obtain ⟨gid, g⟩ := p
      dsimp only
      have hne : (if ((g.release).1).acquired = 0 ∧ rest ≠ [] then rest else (gid, (g.release).1) :: rest) ≠ [] := by
        split
        · rename_i hcond
          exact hcond.2
        · simp
      cases hgr : (g.release).2 <;> cases htr : (sys.ph.available.release).2 <;> dsimp only
      · exact ⟨rfl, fun _ => hne⟩
      · rename_i w
        have hr := resumeTs_facts w { sys with ph := { sys.ph with gens := (if ((g.release).1).acquired = 0 ∧ rest ≠ [] then rest else (gid, (g.release).1) :: rest), available := (sys.ph.available.release).1 }, log := sys.log ++ [Event.releaseCalled tid] }
        exact ⟨hr.1, fun _ => ne_nil_of_length_eq hr.2.1 hne⟩
      · rename_i w
        have hr := resumeGen_ph gid w { sys with ph := { sys.ph with gens := (if ((g.release).1).acquired = 0 ∧ rest ≠ [] then rest else (gid, (g.release).1) :: rest), available := (sys.ph.available.release).1 }, log := sys.log ++ [Event.releaseCalled tid] }
        rw [hr]
        exact ⟨rfl, fun _ => hne⟩
      · rename_i wg wt
        have hrg := resumeGen_ph gid wg { sys with ph := { sys.ph with gens := (if ((g.release).1).acquired = 0 ∧ rest ≠ [] then rest else (gid, (g.release).1) :: rest), available := (sys.ph.available.release).1 }, log := sys.log ++ [Event.releaseCalled tid] }
        have hrt := resumeTs_facts wt (resumeGen gid wg { sys with ph := { sys.ph with gens := (if ((g.release).1).acquired = 0 ∧ rest ≠ [] then rest else (gid, (g.release).1) :: rest), available := (sys.ph.available.release).1 }, log := sys.log ++ [Event.releaseCalled tid] })
        refine ⟨hrt.1.trans (by rw [hrg]), fun _ => ?_⟩
        have hlen := hrt.2.1
        rw [hrg] at hlen
        exact ne_nil_of_length_eq hlen hne

theorem step_facts (sys : Sys) (op : PhOp) :
    (sys.step op).ph.isLockedF = sys.ph.isLockedF
    ∧ (sys.ph.gens ≠ [] → (sys.step op).ph.gens ≠ []) := by
  cases op with
  | acq tid =>
      have h := phAcquire_facts tid sys
      exact ⟨h.1, fun hne => ne_nil_of_length_eq h.2 hne⟩
  | rel tid => exact phRelease_facts tid sys
  | lock tid key =>
      have h := phLock_facts tid key sys
      refine ⟨h.1, fun hne hemp => ?_⟩
      simp only [Sys.step] at hemp
      have h2 := h.2
      rw [hemp] at h2
      simp at h2
      exact hne (by cases hg : sys.ph.gens with | nil => rfl | cons a t => rw [hg] at h2; simp at h2)
  | unlock tid => exact phUnlock_facts tid sys

/-- Every reachable `PhasedSemaphore` state keeps the never-assigned
`isLocked` field undefined and keeps at least one generation. -/
theorem run_facts (c : Int) (ops : List PhOp) :
    (Sys.run c ops).ph.isLockedF = none ∧ (Sys.run c ops).ph.gens ≠ [] := by
  unfold Sys.run
  apply foldl_pres (P := fun sy : Sys => sy.ph.isLockedF = none ∧ sy.ph.gens ≠ [])
  · intro a b hp
    have h := step_facts a b
    exact ⟨h.1.trans hp.1, h.2 hp.2⟩
  · exact ⟨rfl, by simp [Sys.mkNew, PhasedSemaphore.mkNew]⟩

/-- C4 (amended): `PhasedSemaphore.release()` releases one capacity unit
from the oldest generation's gate, invokes one turnstile release
unconditionally — even for an acquisition that took no turnstile ticket —
and removes the oldest generation exactly when its updated `acquired`
counter is `0` and a newer generation exists; and in every reachable state
at least one generation is present. -/
theorem c4_release (sys : Sys) (tid gid : Nat) (g : Semaphore) (rest : List (Nat × Semaphore))
    (hg : sys.ph.gens = (gid, g) :: rest) (ht : sys.tasks = []) :
    ((sys.step (PhOp.rel tid)).ph.available = ((sys.ph.available).release).1
      ∧ (sys.step (PhOp.rel tid)).ph.gens = (if ((g.release).1).acquired = 0 ∧ rest ≠ [] then rest else (gid, (g.release).1) :: rest))
    ∧ (∀ (c : Int) (ops : List PhOp), (Sys.run c ops).ph.gens ≠ []) := by
  refine ⟨?_, fun c ops => (run_facts c ops).2⟩
  simp only [Sys.step]
  unfold phRelease
  rw [hg]
  dsimp only
  cases hgr : (g.release).2 <;> cases htr : (sys.ph.available.release).2 <;> dsimp only
  · exact ⟨rfl, rfl⟩
  · rename_i w
    have hn : resumeTs w { sys with ph := { sys.ph with gens := (if ((g.release).1).acquired = 0 ∧ rest ≠ [] then rest else (gid, (g.release).1) :: rest), available := (sys.ph.available.release).1 }, log := sys.log ++ [Event.releaseCalled tid] } = { sys with ph := { sys.ph with gens := (if ((g.release).1).acquired = 0 ∧ rest ≠ [] then rest else (gid, (g.release).1) :: rest), available := (sys.ph.available.release).1 }, log := sys.log ++ [Event.releaseCalled tid] } := resumeTs_nil _ _ ht
    rw [hn]
    exact ⟨rfl, rfl⟩
  · rename_i w
    have hn : resumeGen gid w { sys with ph := { sys.ph with gens := (if ((g.release).1).acquired = 0 ∧ rest ≠ [] then rest else (gid, (g.release).1) :: rest), available := (sys.ph.available.release).1 }, log := sys.log ++ [Event.releaseCalled tid] } = { sys with ph := { sys.ph with gens := (if ((g.release).1).acquired = 0 ∧ rest ≠ [] then rest else (gid, (g.release).1) :: rest), available := (sys.ph.available.release).1 }, log := sys.log ++ [Event.releaseCalled tid] } := resumeGen_nil _ _ _ ht
    rw [hn]
    exact ⟨rfl, rfl⟩
  · rename_i wg wt
    have hn : resumeGen gid wg { sys with ph := { sys.ph with gens := (if ((g.release).1).acquired = 0 ∧ rest ≠ [] then rest else (gid, (g.release).1) :: rest), available := (sys.ph.available.release).1 }, log := sys.log ++ [Event.releaseCalled tid] } = { sys with ph := { sys.ph with gens := (if ((g.release).1).acquired = 0 ∧ rest ≠ [] then rest else (gid, (g.release).1) :: rest), available := (sys.ph.available.release).1 }, log := sys.log ++ [Event.releaseCalled tid] } := resumeGen_nil _ _ _ ht
    rw [hn]
    have hn2 : resumeTs wt { sys with ph := { sys.ph with gens := (if ((g.release).1).acquired = 0 ∧ rest ≠ [] then rest else (gid, (g.release).1) :: rest), available := (sys.ph.available.release).1 }, log := sys.log ++ [Event.releaseCalled tid] } = { sys with ph := { sys.ph with gens := (if ((g.release).1).acquired = 0 ∧ rest ≠ [] then rest else (gid, (g.release).1) :: rest), available := (sys.ph.available.release).1 }, log := sys.log ++ [Event.releaseCalled tid] } := resumeTs_nil _ _ ht
    rw [hn2]
    exact ⟨rfl, rfl⟩

/-- Witness for `c4_release`: a fresh capacity-1 `PhasedSemaphore` and an
unmatched `release()`. -/
theorem c4_release_witness :
    (Sys.mkNew 1).ph.gens = (0, Semaphore.mkNew 1) :: []
    ∧ (Sys.mkNew 1).tasks = []
    ∧ ((((Sys.mkNew 1).step (PhOp.rel 0)).ph.available = (((Sys.mkNew 1).ph.available).release).1
        ∧ ((Sys.mkNew 1).step (PhOp.rel 0)).ph.gens = (if (((Semaphore.mkNew 1).release).1).acquired = 0 ∧ ([] : List (Nat × Semaphore)) ≠ [] then [] else (0, ((Semaphore.mkNew 1).release).1) :: []))
      ∧ (∀ (c : Int) (ops : List PhOp), (Sys.run c ops).ph.gens ≠ [])) :=
  ⟨rfl, rfl, c4_release (Sys.mkNew 1) 0 0 (Semaphore.mkNew 1) [] rfl rfl⟩

theorem laneInv_setLane (n : String) (lane : StateLaneSemaphore) (ls : List (String × StateLaneSemaphore))
    (hls : ∀ p ∈ ls, p.2.isLockedF = none ∧ p.2.phase.ph.isLockedF = none)
    (hl : lane.isLockedF = none ∧ lane.phase.ph.isLockedF = none) :
    ∀ p ∈ setLane n lane ls, p.2.isLockedF = none ∧ p.2.phase.ph.isLockedF = none := by
  induction ls with
  | nil =>
      intro p hp
      simp only [setLane, List.mem_singleton] at hp
      subst hp
      exact hl
  | cons l rest ih =>
      intro p hp
      simp only [setLane] at hp
      split at hp
      · rcases List.mem_cons.mp hp with h1 | h2
        · subst h1
          exact hl
        · exact hls p (List.mem_cons_of_mem l h2)
      · rcases List.mem_cons.mp hp with h1 | h2
        · rw [h1]
          exact hls l (List.mem_cons_self l rest)
        · exact ih (fun q hq => hls q (List.mem_cons_of_mem l hq)) p h2

theorem laneInv_createLane (g : StateSemaphore) (n : String) (bs : List String) (c : Int)
    (h : LaneInv g) : LaneInv (g.createLane n bs c) := by
  intro p hp
  exact laneInv_setLane n _ g.lanes h ⟨rfl, rfl⟩ p hp

theorem laneInv_mkNew (defCap : Int) (spec : List (String × List String × Int)) :
    LaneInv (StateSemaphore.mkNew defCap spec) := by
  unfold StateSemaphore.mkNew
  apply foldl_pres (P := LaneInv)
  · intro g t h
    exact laneInv_createLane g t.1 t.2.1 t.2.2 h
  · exact fun p hp => absurd hp (List.not_mem_nil p)

theorem laneInv_getLane (g : StateSemaphore) (n : String) (h : LaneInv g) :
    LaneInv (g.getLane n).1 := by
  unfold StateSemaphore.getLane
  cases hl : lookupLane n g.lanes with
  | some l => exact h
  | none =>
      dsimp only
      intro p hp
      rcases List.mem_append.mp hp with h1 | h2
      · exact h p h1
      · simp only [List.mem_singleton] at h2
        subst h2
        exact ⟨rfl, rfl⟩

theorem laneInv_stepLanePhase (n : String) (op : PhOp) (g : StateSemaphore) (h : LaneInv g) :
    LaneInv (stepLanePhase n op g) := by
  intro p hp
  unfold stepLanePhase at hp
  simp only [List.mem_map] at hp
  obtain ⟨q, hq, hfq⟩ := hp
  subst hfq
  split
  · exact ⟨(h q hq).1, (step_facts q.2.phase op).1.trans (h q hq).2⟩
  · exact h q hq

theorem laneInv_laneAcquire (n : String) (tid : Nat) (g : StateSemaphore) (h : LaneInv g) :
    LaneInv (laneAcquire n tid g) := by
  unfold laneAcquire
  apply foldl_pres (P := LaneInv)
  · intro a b ha
    exact laneInv_stepLanePhase b _ _ (laneInv_getLane a b ha)
  · exact laneInv_stepLanePhase n _ _ (laneInv_stepLanePhase n _ _ (laneInv_getLane g n h))

theorem laneInv_laneRelease (n : String) (tid : Nat) (g : StateSemaphore) (h : LaneInv g) :
    LaneInv (laneRelease n tid g) := by
  unfold laneRelease
  apply laneInv_stepLanePhase n _ _
  apply laneInv_stepLanePhase n _ _
  apply foldl_pres (P := LaneInv)
  · intro a b ha
    exact laneInv_stepLanePhase b _ _ (laneInv_getLane a b ha)
  · exact laneInv_getLane g n h

theorem laneInv_stepOp (g : StateSemaphore) (op : LaneOp) (h : LaneInv g) :
    LaneInv (g.stepOp op) := by
  cases op with
  | acq n tid => exact laneInv_laneAcquire n tid g h
  | rel n tid => exact laneInv_laneRelease n tid g h
  | lock n tid key => exact laneInv_stepLanePhase n _ _ (laneInv_getLane g n h)
  | unlock n tid => exact laneInv_stepLanePhase n _ _ (laneInv_getLane g n h)

theorem laneInv_runOps (defCap : Int) (spec : List (String × List String × Int)) (ops : List LaneOp) :
    LaneInv (StateSemaphore.runOps defCap spec ops) := by
  unfold StateSemaphore.runOps
  exact foldl_pres (P := LaneInv) (fun a b ha => laneInv_stepOp a b ha) ops _ (laneInv_mkNew defCap spec)

/-- C8 (amended): for `Semaphore` (the counting gate), `isLocked` is `true`
exactly when an immediate `acquire()` would suspend, in every state; for
`PhasedSemaphore` and for every lane (`StateLaneSemaphore`) of a lane
graph, the declared `isLocked` field is assigned by no code path, so it
stays undefined in every reachable state and does not report whether an
`acquire()` would suspend. -/
theorem c8_isLocked :
    (∀ s : Semaphore, s.isLocked = true ↔ ((s.acquire).2).isSome = true)
    ∧ (∀ (c : Int) (ops : List PhOp), (Sys.run c ops).ph.isLockedF = none)
    ∧ (∀ (defCap : Int) (spec : List (String × List String × Int)) (ops : List LaneOp) (p : String × StateLaneSemaphore), p ∈ (StateSemaphore.runOps defCap spec ops).lanes → p.2.isLockedF = none ∧ p.2.phase.ph.isLockedF = none) := by
  refine ⟨?_, fun c ops => (run_facts c ops).1, fun defCap spec ops p hp => laneInv_runOps defCap spec ops p hp⟩
  intro s
  simp only [Semaphore.isLocked, Semaphore.acquire]
  split <;> rename_i hc <;> simp <;> omega

/-- Witness for `c8_isLocked`: a two-lane graph shaped like
`ReadWriteSemaphore` after a writer's `acquire()`, whose `read` lane has
received the blocker lock yet keeps both `isLocked` fields undefined. -/
theorem c8_isLocked_witness :
    (("read", (⟨"read", [], (Sys.mkNew 2).step (PhOp.lock 7 (JSKey.str "write")), none⟩ : StateLaneSemaphore)) ∈ (StateSemaphore.runOps 1 [("read", [], 2), ("write", ["read"], 1)] [LaneOp.acq "write" 7]).lanes)
    ∧ ((⟨"read", [], (Sys.mkNew 2).step (PhOp.lock 7 (JSKey.str "write")), none⟩ : StateLaneSemaphore).isLockedF = none
      ∧ (⟨"read", [], (Sys.mkNew 2).step (PhOp.lock 7 (JSKey.str "write")), none⟩ : StateLaneSemaphore).phase.ph.isLockedF = none) :=
  ⟨by decide, c8_isLocked.2.2 1 [("read", [], 2), ("write", ["read"], 1)] [LaneOp.acq "write" 7] ("read", ⟨"read", [], (Sys.mkNew 2).step (PhOp.lock 7 (JSKey.str "write")), none⟩) (by decide)⟩

end DataSemaphore
